import Mathlib

/-
Verification of the ring-star optimisation heuristics.

The Python sources under src/ are embedded shallowly:

* points are triples (id, x, y) with rational coordinates;
* the distance dictionary built by the absent module src/calcul_distances.py
  is modelled, following the spec, as a map on unordered pairs of identifiers
  (hence symmetric by construction); real values are modelled by rationals;
* randomness (random.sample, random.choice, random.random) is modelled by
  explicit oracle arguments, so theorems quantify over every draw sequence;
* the two while loops (2-opt local search, simulated annealing) are modelled
  with an explicit iteration bound; the bound used for 2-opt is proved
  sufficient (the loop provably converges before exhausting it), and the
  termination of the annealing loop for valid parameters is itself one of the
  verified properties.
-/

namespace RingStar

/-- A point of the instance: identifier and the two rational coordinates. -/
abbrev Point : Type := Nat × ℚ × ℚ

/-- The distance dictionary, keyed by ordered pairs of identifiers. -/
abbrev DistMap : Type := Nat → Nat → ℚ

/-- Modelled from the spec: obtenir_distance of the module
src/calcul_distances.py, which is absent from src/.  The spec describes the
DistanceMatrix as a mapping from unordered pairs of point identifiers,
symmetric with zero diagonal; the unordered pair is represented here by the
(min, max) normalisation, making every DistMap symmetric by construction. -/
def obtenir_distance (d : DistMap) (i j : Nat) : ℚ :=
  d (min i j) (max i j)

/-- Modelled from the spec: calculer_longueur_cycle of the module
src/tsp/plus_proche_voisin.py, which is absent from src/.  The tour length is
the sum of the distances between consecutive elements of the cycle list. -/
def calculer_longueur_cycle (c : List Nat) (d : DistMap) : ℚ :=
  match c with
  | x :: y :: t => obtenir_distance d x y + calculer_longueur_cycle (y :: t) d
  | _ => 0

/-- The edge joining two list fragments: distance from the last element of
the first to the head of the second, zero if either is empty. -/
def jonction (d : DistMap) (xs ys : List Nat) : ℚ :=
  match xs.getLast?, ys.head? with
  | some a, some b => obtenir_distance d a b
  | _, _ => 0

/-! ## 2-opt (src/tsp/two_opt.py) -/

/-- Embeds appliquer_2opt: copy the cycle and reverse the section between
indices i+1 and j inclusive (the Python slice assignment). -/
def appliquer_2opt (cycle : List Nat) (i j : Nat) : List Nat :=
  cycle.take (i + 1) ++ ((cycle.drop (i + 1)).take (j - i)).reverse ++
    cycle.drop (j + 1)

/-- Embeds calculer_gain_2opt: current distance of the two edges minus the
distance after the exchange. -/
def calculer_gain_2opt (cycle : List Nat) (i j : Nat) (distances : DistMap) : ℚ :=
  let station_i := cycle.getD i 0
  let station_i_suivante := cycle.getD (i + 1) 0
  let station_j := cycle.getD j 0
  let station_j_suivante := cycle.getD (j + 1) 0
  (obtenir_distance distances station_i station_i_suivante +
      obtenir_distance distances station_j station_j_suivante) -
    (obtenir_distance distances station_i station_j +
      obtenir_distance distances station_i_suivante station_j_suivante)

/-- One pass of the inner double loop of ameliorer_cycle_2opt: scan all pairs
(i, j) with 0 <= i < n-1 and i+2 <= j < n, n being the station count, and
keep the best strictly improving gain together with its indices.  The Python
initialisation meilleur_gain = 0.0, meilleur_i = meilleur_j = -1 is modelled
by the accumulator (0, none). -/
def chercherMeilleurEchange (cycle : List Nat) (distances : DistMap) :
    ℚ × Option (Nat × Nat) :=
  let nombre_stations := cycle.length - 1
  (List.range (nombre_stations - 1)).foldl (fun acc i =>
      (List.range' (i + 2) (nombre_stations - (i + 2))).foldl (fun acc2 j =>
          let gain := calculer_gain_2opt cycle i j distances
          if acc2.1 < gain then (gain, some (i, j)) else acc2)
        acc)
    (0, none)

/-- The while loop of ameliorer_cycle_2opt, with an explicit iteration bound;
each round applies the single best move when its gain exceeds the 1/10000
tolerance and stops otherwise.  boucle2opt_converge below proves that the
bound chosen in ameliorer_cycle_2opt is never exhausted. -/
def boucle2opt (distances : DistMap) : Nat → List Nat → List Nat
  | 0, cycle_ameliore => cycle_ameliore
  | fuel + 1, cycle_ameliore =>
    match chercherMeilleurEchange cycle_ameliore distances with
    | (g, some ij) =>
      if 1 / 10000 < g then
        boucle2opt distances fuel (appliquer_2opt cycle_ameliore ij.1 ij.2)
      else cycle_ameliore
    | (_, none) => cycle_ameliore

/-- Embeds ameliorer_cycle_2opt: cycles of length at most 3 are returned
unchanged, otherwise the best-improvement loop runs to convergence. -/
def ameliorer_cycle_2opt (cycle : List Nat) (distances : DistMap) : List Nat :=
  if cycle.length ≤ 3 then cycle
  else boucle2opt distances cycle.permutations.length cycle

/-- What the accumulator of chercherMeilleurEchange can look like: either the
initial sentinel, or a recorded move with its exact gain and in-range
indices. -/
def InvEchange (cycle : List Nat) (d : DistMap) (acc : ℚ × Option (Nat × Nat)) :
    Prop :=
  acc.2 = none ∨
    ∃ i j, acc.2 = some (i, j) ∧ acc.1 = calculer_gain_2opt cycle i j d ∧
      i + 2 ≤ j ∧ j + 1 < cycle.length

/-- A cycle is stable for the 2-opt pass when the pass records no move whose
gain exceeds the tolerance, so the while loop would exit at once. -/
def EchangeStable (c : List Nat) (d : DistMap) : Prop :=
  match chercherMeilleurEchange c d with
  | (g, some _) => g ≤ 1 / 10000
  | (_, none) => True

/-- Number of permutations of the cycle that are strictly shorter: the
measure showing the 2-opt loop converges within its iteration bound. -/
def mesure2opt (c : List Nat) (d : DistMap) : Nat :=
  (c.permutations.toFinset.filter
    (fun l => calculer_longueur_cycle l d < calculer_longueur_cycle c d)).card

/-! ## Assignment (src/p_median/affectation.py) -/

/-- One step of the inner loop of affecter_points_aux_stations: keep the
station if it strictly improves the minimal distance seen so far.  The
Python initialisation station_plus_proche = None, distance_minimale = inf is
modelled by the accumulator none: every finite distance beats it. -/
def etapePlusProche (id_point : Nat) (distances : DistMap)
    (acc : Option (Nat × ℚ)) (id_station : Nat) : Option (Nat × ℚ) :=
  let distance := obtenir_distance distances id_point id_station
  match acc with
  | none => some (id_station, distance)
  | some (_, distance_minimale) =>
    if distance < distance_minimale then some (id_station, distance) else acc

/-- The station-search loop of affecter_points_aux_stations: scan the
station list and keep the first station achieving the minimal distance. -/
def chercher_station_plus_proche (id_point : Nat) (stations : List Nat)
    (distances : DistMap) : Option Nat :=
  (stations.foldl (etapePlusProche id_point distances) none).map Prod.fst

/-- Embeds affecter_points_aux_stations: a station is assigned to itself,
any other point to the closest station.  The Python dict is modelled as an
association list with one entry per point, in point order; the value none
corresponds to the Python value None, reached only when the station list is
empty. -/
def affecter_points_aux_stations (points : List Point) (stations : List Nat)
    (distances : DistMap) : List (Nat × Option Nat) :=
  points.map (fun point =>
    let id_point := point.1
    if id_point ∈ stations then (id_point, some id_point)
    else (id_point, chercher_station_plus_proche id_point stations distances))

/-- Embeds calculer_cout_affectation: sum over all points of the distance to
the station assigned to the point. -/
def calculer_cout_affectation (points : List Point) (stations : List Nat)
    (distances : DistMap) : ℚ :=
  let affectations := affecter_points_aux_stations points stations distances
  points.foldl (fun cout_total point =>
    match (affectations.lookup point.1).join with
    | some id_station =>
        cout_total + obtenir_distance distances point.1 id_station
    | none => cout_total) 0

/-! ## Station selection (src/p_median/heuristique_aleatoire.py and
src/p_median/heuristique_gloutonne.py) -/

/-- Embeds selectionner_stations_aleatoire.  random.sample is modelled by
the explicit argument sample; theorems about this function quantify over
every sampler, assuming only what the Python library guarantees (the result
has exactly the requested number of elements). -/
def selectionner_stations_aleatoire (sample : List Nat → Nat → List Nat)
    (points : List Point) (p : Int) : List Nat :=
  if p ≤ 0 then []
  else if p > (points.length : Int) then points.map (fun point => point.1)
  else if p = 1 then [1]
  else
    [1] ++ sample
      ((points.map (fun point => point.1)).filter (fun id_point => id_point ≠ 1))
      (p - 1).toNat

/-- Modelled from the spec: distance_euclidienne of the absent module
src/calcul_distances.py.  The spec gives sqrt((x1-x2)^2 + (y1-y2)^2); square
roots do not exist in ℚ, so the square of the distance is used.  Its only
use inside src/ is the strict comparison in selectionner_stations_grille,
and squaring is strictly monotone on non-negative reals, so every
comparison, hence every selected point, is unchanged. -/
def distance_euclidienne (a b : Point) : ℚ :=
  (a.2.1 - b.2.1) ^ 2 + (a.2.2 - b.2.2) ^ 2

/-- math.ceil(math.sqrt m) for a natural number m. -/
def ceilSqrt (m : Nat) : Nat :=
  if Nat.sqrt m * Nat.sqrt m = m then Nat.sqrt m else Nat.sqrt m + 1

/-- Python min over a list of rationals (total, with default 0; only applied
to non-empty lists). -/
def listMin : List ℚ → ℚ
  | [] => 0
  | h :: t => t.foldl min h

/-- Python max over a list of rationals (total, with default 0; only applied
to non-empty lists). -/
def listMax : List ℚ → ℚ
  | [] => 0
  | h :: t => t.foldl max h

/-- The inner loop of selectionner_stations_grille: point closest to the
cell centre among the points not already selected, first seen wins ties. -/
def chercherMeilleurPoint (point_centre : Point) (points : List Point)
    (deja_selectionnes : List Nat) : Option Nat :=
  (points.foldl (fun acc point =>
      if point.1 ∈ deja_selectionnes then acc
      else
        let distance := distance_euclidienne point_centre point
        match acc with
        | none => some (point.1, distance)
        | some (_, meilleure_distance) =>
          if distance < meilleure_distance then some (point.1, distance)
          else acc)
    none).map Prod.fst

/-- The grid-centre computation block of selectionner_stations_grille:
bounding box, roughly square grid of ceil(sqrt(p-1)) columns, centre of each
cell in row-major order, truncated to p-1 cells. -/
def centresGrille (points : List Point) (nombre_stations_restantes : Nat) :
    List (ℚ × ℚ) :=
  let coordonnees_x := points.map (fun point => point.2.1)
  let coordonnees_y := points.map (fun point => point.2.2)
  let x_min := listMin coordonnees_x
  let x_max := listMax coordonnees_x
  let y_min := listMin coordonnees_y
  let y_max := listMax coordonnees_y
  let nombre_colonnes := ceilSqrt nombre_stations_restantes
  let nombre_lignes :=
    (nombre_stations_restantes + nombre_colonnes - 1) / nombre_colonnes
  let largeur_cellule := (x_max - x_min) / (nombre_colonnes : ℚ)
  let hauteur_cellule := (y_max - y_min) / (nombre_lignes : ℚ)
  ((List.range nombre_lignes).flatMap (fun i =>
      (List.range nombre_colonnes).map (fun j =>
        (x_min + ((j : ℚ) + 1 / 2) * largeur_cellule,
          y_min + ((i : ℚ) + 1 / 2) * hauteur_cellule)))).take
    nombre_stations_restantes

/-- The selection loop of selectionner_stations_grille: for each grid
centre, add the closest not-yet-selected point, skipping centres whose
candidate pool is empty.  The state carries the selected-station list and
the already-selected identifier set. -/
def boucleGrille (points : List Point) (centres : List (ℚ × ℚ))
    (etat : List Nat × List Nat) : List Nat × List Nat :=
  centres.foldl (fun etat2 centre =>
    match chercherMeilleurPoint (0, centre.1, centre.2) points etat2.2 with
    | some meilleur_point =>
      (etat2.1 ++ [meilleur_point], meilleur_point :: etat2.2)
    | none => etat2) etat

/-- Embeds selectionner_stations_grille. -/
def selectionner_stations_grille (points : List Point) (p : Int) : List Nat :=
  if p ≤ 0 then []
  else if p > (points.length : Int) then points.map (fun point => point.1)
  else if p = 1 then [1]
  else (boucleGrille points (centresGrille points (p - 1).toNat) ([1], [1])).1

/-! ## Nearest-neighbour cycle, solution records, construction pipeline
(src/heuristiques/solution_initiale.py) -/

/-- Modelled from the spec: the step loop of
construire_cycle_plus_proche_voisin of the absent module
src/tsp/plus_proche_voisin.py: repeatedly append the unvisited station
closest to the current last station.  The iteration count is the number of
remaining stations, which the erase-one-station step makes exact. -/
def nnEtapes (distances : DistMap) : Nat → Nat → List Nat → List Nat
  | 0, _, _ => []
  | fuel + 1, station_courante, restantes =>
    match chercher_station_plus_proche station_courante restantes distances with
    | none => []
    | some suivante =>
      suivante :: nnEtapes distances fuel suivante (restantes.erase suivante)

/-- Modelled from the spec: construire_cycle_plus_proche_voisin of the
absent module src/tsp/plus_proche_voisin.py: start from the first station
(the anchor in every call), repeatedly visit the nearest unvisited station,
and close the tour; no station gives the empty cycle, a single station gives
the two-element self-loop. -/
def construire_cycle_plus_proche_voisin (stations : List Nat)
    (distances : DistMap) : List Nat :=
  match stations with
  | [] => []
  | premiere :: restantes =>
    (premiere :: nnEtapes distances restantes.length premiere restantes) ++
      [premiere]

/-- Modelled from the spec: creer_matrice_distances of the absent module
src/calcul_distances.py, the Euclidean distance dictionary of the instance;
as with distance_euclidienne the square of the distance is used, ℚ having no
square roots.  No claim depends on the numeric value of an instance
distance. -/
def creer_matrice_distances (points : List Point) : DistMap :=
  fun i j =>
    match points.find? (fun point => point.1 == i),
        points.find? (fun point => point.1 == j) with
    | some a, some b => distance_euclidienne a b
    | _, _ => 0

/-- The solution dictionary produced by the pipeline. -/
structure Solution where
  stations : List Nat
  cycle : List Nat
  affectations : List (Nat × Option Nat)
  longueur_cycle : ℚ
  cout_affectation : ℚ
  cout_total : ℚ
deriving DecidableEq

/-- Embeds recalculer_solution of src/heuristiques/metaheuristique.py:
rebuild the full solution from a station list (nearest-neighbour cycle,
2-opt, assignment, weighted cost). -/
def recalculer_solution (points : List Point) (stations : List Nat)
    (distances : DistMap) (alpha : ℚ) : Solution :=
  let cycle0 := construire_cycle_plus_proche_voisin stations distances
  let cycle := ameliorer_cycle_2opt cycle0 distances
  let affectations := affecter_points_aux_stations points stations distances
  let longueur_cycle := calculer_longueur_cycle cycle distances
  let cout_affectation := calculer_cout_affectation points stations distances
  { stations := stations, cycle := cycle, affectations := affectations,
    longueur_cycle := longueur_cycle, cout_affectation := cout_affectation,
    cout_total := alpha * longueur_cycle + (1 - alpha) * cout_affectation }

/-- Embeds construire_solution_initiale of
src/heuristiques/solution_initiale.py.  The two selection-method branches of
the Python code collapse into one if: any string other than "aleatoire"
selects the grid method, exactly as the original falls back to the grid. -/
def construire_solution_initiale (sample : List Nat → Nat → List Nat)
    (points : List Point) (p : Int) (methode_selection : String)
    (ameliorer_cycle : Bool) (alpha : ℚ) : Solution :=
  let distances := creer_matrice_distances points
  let stations :=
    if methode_selection = "aleatoire" then
      selectionner_stations_aleatoire sample points p
    else selectionner_stations_grille points p
  let cycle0 := construire_cycle_plus_proche_voisin stations distances
  let cycle :=
    if ameliorer_cycle then ameliorer_cycle_2opt cycle0 distances else cycle0
  let affectations := affecter_points_aux_stations points stations distances
  let longueur_cycle := calculer_longueur_cycle cycle distances
  let cout_affectation := calculer_cout_affectation points stations distances
  { stations := stations, cycle := cycle, affectations := affectations,
    longueur_cycle := longueur_cycle, cout_affectation := cout_affectation,
    cout_total := alpha * longueur_cycle + (1 - alpha) * cout_affectation }

/-! ## Simulated annealing (src/heuristiques/metaheuristique.py) -/

/-- Embeds generer_voisin_echange_station: remove one removable (non-anchor)
station and append one non-station point.  The two random.choice draws are
modelled by oracle indices taken modulo the candidate-list lengths, so every
choice the library could make is reachable. -/
def generer_voisin_echange_station (choix_station choix_point : Nat)
    (points : List Point) (stations_actuelles : List Nat) : List Nat :=
  let tous_ids := points.map (fun point => point.1)
  let points_non_stations :=
    tous_ids.filter (fun id_point => decide (id_point ∉ stations_actuelles))
  if points_non_stations = [] then stations_actuelles
  else
    let stations_retirables :=
      stations_actuelles.filter (fun s => decide (s ≠ 1))
    if stations_retirables = [] then stations_actuelles
    else
      let station_a_retirer :=
        stations_retirables.getD (choix_station % stations_retirables.length) 0
      let point_a_ajouter :=
        points_non_stations.getD (choix_point % points_non_stations.length) 0
      (stations_actuelles.erase station_a_retirer) ++ [point_a_ajouter]

/-- The mutable locals of the recuit_simule loop. -/
structure EtatRecuit where
  solution_courante : Solution
  meilleure_solution : Solution
  meilleur_cout : ℚ
  temperature : ℚ
  nombre_acceptations : Nat
  nombre_rejets : Nat
  iteration : Nat

/-- One inner iteration of recuit_simule.  The Metropolis comparison
random.random() < exp(-delta/temperature) is modelled by the Boolean oracle
accepter_pire (exp is transcendental, and both outcomes of the comparison
are reachable whenever it is consulted); theorems quantify over every
oracle, hence cover every outcome of the real draw.  The Python loop locals
(nouvelles_stations, nouvelle_solution, delta, and the two-stage update of
the current and best solutions) are inlined; each branch below performs
exactly the field updates the corresponding Python path performs. -/
def etapeInterieure (points : List Point) (distances : DistMap) (alpha : ℚ)
    (choix_stations choix_points : Nat → Nat) (accepter_pire : Nat → Bool)
    (etat : EtatRecuit) : EtatRecuit :=
  if generer_voisin_echange_station (choix_stations etat.iteration)
      (choix_points etat.iteration) points etat.solution_courante.stations =
      etat.solution_courante.stations then
    { etat with iteration := etat.iteration + 1 }
  else
    if (decide ((recalculer_solution points
          (generer_voisin_echange_station (choix_stations etat.iteration)
            (choix_points etat.iteration) points
            etat.solution_courante.stations) distances alpha).cout_total -
          etat.solution_courante.cout_total < 0) ||
        accepter_pire etat.iteration) then
      if (recalculer_solution points
            (generer_voisin_echange_station (choix_stations etat.iteration)
              (choix_points etat.iteration) points
              etat.solution_courante.stations) distances alpha).cout_total <
          etat.meilleur_cout then
        { etat with
          iteration := etat.iteration + 1,
          solution_courante := recalculer_solution points
            (generer_voisin_echange_station (choix_stations etat.iteration)
              (choix_points etat.iteration) points
              etat.solution_courante.stations) distances alpha,
          nombre_acceptations := etat.nombre_acceptations + 1,
          meilleure_solution := recalculer_solution points
            (generer_voisin_echange_station (choix_stations etat.iteration)
              (choix_points etat.iteration) points
              etat.solution_courante.stations) distances alpha,
          meilleur_cout := (recalculer_solution points
            (generer_voisin_echange_station (choix_stations etat.iteration)
              (choix_points etat.iteration) points
              etat.solution_courante.stations) distances alpha).cout_total }
      else
        { etat with
          iteration := etat.iteration + 1,
          solution_courante := recalculer_solution points
            (generer_voisin_echange_station (choix_stations etat.iteration)
              (choix_points etat.iteration) points
              etat.solution_courante.stations) distances alpha,
          nombre_acceptations := etat.nombre_acceptations + 1 }
    else
      { etat with
        iteration := etat.iteration + 1,
        nombre_rejets := etat.nombre_rejets + 1 }

/-- The outer while loop of recuit_simule, with an explicit bound on the
number of cooling steps; none models a run that would still be looping after
that many steps.  Claim C7 proves a sufficient bound exists for every valid
parameterisation. -/
def boucleRecuit (points : List Point) (distances : DistMap)
    (alpha temperature_finale facteur_refroidissement : ℚ)
    (choix_stations choix_points : Nat → Nat) (accepter_pire : Nat → Bool)
    (iterations_par_temperature : Nat) :
    Nat → EtatRecuit → Option EtatRecuit
  | 0, etat =>
    if temperature_finale < etat.temperature then none else some etat
  | plafond + 1, etat =>
    if temperature_finale < etat.temperature then
      let etat2 := (etapeInterieure points distances alpha choix_stations
        choix_points accepter_pire)^[iterations_par_temperature] etat
      boucleRecuit points distances alpha temperature_finale
        facteur_refroidissement choix_stations choix_points accepter_pire
        iterations_par_temperature plafond
        { etat2 with
          temperature := etat2.temperature * facteur_refroidissement }
    else some etat

/-- Embeds recuit_simule: build the initial loop state from the supplied
initial solution and run the cooling loop. -/
def recuit_simule (plafond_refroidissements : Nat)
    (choix_stations choix_points : Nat → Nat) (accepter_pire : Nat → Bool)
    (points : List Point) (solution_initiale : Solution) (distances : DistMap)
    (alpha temperature_initiale temperature_finale
      facteur_refroidissement : ℚ)
    (iterations_par_temperature : Nat) : Option Solution :=
  (boucleRecuit points distances alpha temperature_finale
      facteur_refroidissement choix_stations choix_points accepter_pire
      iterations_par_temperature plafond_refroidissements
      { solution_courante := solution_initiale,
        meilleure_solution := solution_initiale,
        meilleur_cout := solution_initiale.cout_total,
        temperature := temperature_initiale,
        nombre_acceptations := 0, nombre_rejets := 0, iteration := 0 }).map
    (fun etat => etat.meilleure_solution)

/-- A fixed degenerate solution used as concrete input by witnesses: the
single-point instance with station list [1]. -/
def solution_temoin : Solution :=
  { stations := [1], cycle := [1, 1], affectations := [(1, some 1)],
    longueur_cycle := 0, cout_affectation := 0, cout_total := 0 }

/-! ## Theorems -/

theorem obtenir_distance_symm (d : DistMap) (i j : Nat) :
    obtenir_distance d i j = obtenir_distance d j i := by
  unfold obtenir_distance
  rw [min_comm, max_comm]

theorem longueur_nil (d : DistMap) : calculer_longueur_cycle [] d = 0 := rfl

theorem longueur_single (d : DistMap) (x : Nat) :
    calculer_longueur_cycle [x] d = 0 := rfl

theorem longueur_cons_cons (d : DistMap) (x y : Nat) (t : List Nat) :
    calculer_longueur_cycle (x :: y :: t) d =
      obtenir_distance d x y + calculer_longueur_cycle (y :: t) d := rfl

theorem jonction_nil_left (d : DistMap) (ys : List Nat) :
    jonction d [] ys = 0 := rfl

theorem jonction_cons_cons (d : DistMap) (a b : Nat) (t ys : List Nat) :
    jonction d (a :: b :: t) ys = jonction d (b :: t) ys := by
  unfold jonction
  rw [List.getLast?_cons_cons]

theorem longueur_append (d : DistMap) (xs ys : List Nat) :
    calculer_longueur_cycle (xs ++ ys) d =
      calculer_longueur_cycle xs d + jonction d xs ys +
        calculer_longueur_cycle ys d := by
  induction xs with
  | nil => simp [jonction_nil_left, longueur_nil]
  | cons a t ih =>
    cases t with
    | nil =>
      cases ys with
      | nil => simp [longueur_single, jonction, longueur_nil]
      | cons b u =>
        simp only [List.singleton_append, longueur_cons_cons, longueur_single,
          jonction, List.getLast?_singleton, List.head?_cons]
        ring
    | cons b u =>
      simp only [List.cons_append] at ih ⊢
      rw [longueur_cons_cons, longueur_cons_cons, ih, jonction_cons_cons]
      ring

theorem longueur_reverse (d : DistMap) (l : List Nat) :
    calculer_longueur_cycle l.reverse d = calculer_longueur_cycle l d := by
  induction l with
  | nil => rfl
  | cons a t ih =>
    rw [List.reverse_cons, longueur_append, ih]
    cases t with
    | nil => simp [jonction, longueur_nil, longueur_single]
    | cons b u =>
      rw [longueur_cons_cons]
      have hj : jonction d (b :: u).reverse [a] = obtenir_distance d a b := by
        unfold jonction
        rw [List.getLast?_reverse, List.head?_cons, List.head?_cons,
          obtenir_distance_symm]
      rw [hj]
      simp [longueur_single]
      ring

/-- A fold preserves any invariant preserved by each step. -/
theorem foldl_inv {α β : Type _} (P : β → Prop) :
    ∀ (l : List α) (f : β → α → β) (init : β), P init →
      (∀ b a, a ∈ l → P b → P (f b a)) → P (l.foldl f init)
  | [], _, _, h0, _ => h0
  | a :: t, f, init, h0, hstep =>
    foldl_inv P t f (f init a) (hstep init a (List.mem_cons_self a t) h0)
      (fun b x hx hb => hstep b x (List.mem_cons_of_mem a hx) hb)

theorem chercher_inv (cycle : List Nat) (d : DistMap) :
    InvEchange cycle d (chercherMeilleurEchange cycle d) := by
  unfold chercherMeilleurEchange
  apply foldl_inv
  · exact Or.inl rfl
  · intro b i hi hb
    apply foldl_inv
    · exact hb
    · intro b2 j hj hb2
      rw [List.mem_range'_1] at hj
      by_cases hg : b2.1 < calculer_gain_2opt cycle i j d
      · simp only [hg, if_pos]
        refine Or.inr ⟨i, j, rfl, rfl, ?_, ?_⟩ <;> omega
      · simpa only [hg, if_neg, not_false_iff] using hb2

theorem drop_eq_mid_append (c : List Nat) (i j : Nat) (hij : i ≤ j) :
    c.drop (i + 1) = (c.drop (i + 1)).take (j - i) ++ c.drop (j + 1) := by
  conv_lhs => rw [← List.take_append_drop (j - i) (c.drop (i + 1))]
  rw [List.drop_drop]
  have h : i + 1 + (j - i) = j + 1 := by omega
  rw [h]

theorem cycle_decompose (c : List Nat) (i j : Nat) (hij : i ≤ j) :
    c = c.take (i + 1) ++ (c.drop (i + 1)).take (j - i) ++ c.drop (j + 1) := by
  conv_lhs => rw [← List.take_append_drop (i + 1) c, drop_eq_mid_append c i j hij]
  rw [List.append_assoc]

theorem jonction_append_left (d : DistMap) (A M B : List Nat) (hM : M ≠ []) :
    jonction d (A ++ M) B = jonction d M B := by
  unfold jonction
  rw [List.getLast?_append]
  cases hM2 : M.getLast? with
  | none => exact absurd (List.getLast?_eq_none_iff.mp hM2) hM
  | some a => rfl

theorem longueur_triple (d : DistMap) (A M B : List Nat) (hM : M ≠ []) :
    calculer_longueur_cycle (A ++ M ++ B) d =
      calculer_longueur_cycle A d + jonction d A M + calculer_longueur_cycle M d +
        jonction d M B + calculer_longueur_cycle B d := by
  rw [longueur_append d (A ++ M) B, longueur_append d A M,
    jonction_append_left d A M B hM]

theorem getLast?_take_succ (c : List Nat) (i : Nat) (hi : i < c.length) :
    (c.take (i + 1)).getLast? = some (c.getD i 0) := by
  rw [List.getLast?_take, if_neg (Nat.succ_ne_zero i), Nat.add_sub_cancel,
    List.getElem?_eq_getElem hi, List.getD_eq_getElem c 0 hi]
  rfl

theorem head?_drop_eq (c : List Nat) (k : Nat) (hk : k < c.length) :
    (c.drop k).head? = some (c.getD k 0) := by
  rw [List.head?_drop, List.getElem?_eq_getElem hk, List.getD_eq_getElem c 0 hk]

theorem head?_mid (c : List Nat) (i j : Nat) (hij : i + 2 ≤ j)
    (hi1 : i + 1 < c.length) :
    ((c.drop (i + 1)).take (j - i)).head? = some (c.getD (i + 1) 0) := by
  rw [List.head?_take, if_neg (by omega), head?_drop_eq c (i + 1) hi1]

theorem getLast?_mid (c : List Nat) (i j : Nat) (hij : i + 2 ≤ j)
    (hj : j + 1 < c.length) :
    ((c.drop (i + 1)).take (j - i)).getLast? = some (c.getD j 0) := by
  have hjlen : j - i - 1 < (c.drop (i + 1)).length := by
    rw [List.length_drop]; omega
  have hj2 : j < c.length := by omega
  rw [List.getLast?_take, if_neg (by omega), List.getElem?_drop]
  have h : i + 1 + (j - i - 1) = j := by omega
  rw [h, List.getElem?_eq_getElem hj2, List.getD_eq_getElem c 0 hj2]
  rfl

theorem longueur_appliquer (c : List Nat) (i j : Nat) (d : DistMap)
    (hij : i + 2 ≤ j) (hj : j + 1 < c.length) :
    calculer_longueur_cycle (appliquer_2opt c i j) d =
      calculer_longueur_cycle c d - calculer_gain_2opt c i j d := by
  have hi : i < c.length := by omega
  have hi1 : i + 1 < c.length := by omega
  have hj2 : j < c.length := by omega
  have hMlen : ((c.drop (i + 1)).take (j - i)).length = j - i := by
    rw [List.length_take, List.length_drop]; omega
  have hM : (c.drop (i + 1)).take (j - i) ≠ [] :=
    List.length_pos.mp (by omega)
  have hMrev : ((c.drop (i + 1)).take (j - i)).reverse ≠ [] := by
    simpa using hM
  have hctriple : calculer_longueur_cycle c d =
      calculer_longueur_cycle (c.take (i + 1)) d +
        jonction d (c.take (i + 1)) ((c.drop (i + 1)).take (j - i)) +
        calculer_longueur_cycle ((c.drop (i + 1)).take (j - i)) d +
        jonction d ((c.drop (i + 1)).take (j - i)) (c.drop (j + 1)) +
        calculer_longueur_cycle (c.drop (j + 1)) d := by
    conv_lhs => rw [cycle_decompose c i j (by omega)]
    exact longueur_triple d _ _ _ hM
  have happ : calculer_longueur_cycle (appliquer_2opt c i j) d =
      calculer_longueur_cycle (c.take (i + 1)) d +
        jonction d (c.take (i + 1)) ((c.drop (i + 1)).take (j - i)).reverse +
        calculer_longueur_cycle ((c.drop (i + 1)).take (j - i)) d +
        jonction d ((c.drop (i + 1)).take (j - i)).reverse (c.drop (j + 1)) +
        calculer_longueur_cycle (c.drop (j + 1)) d := by
    show calculer_longueur_cycle
      (c.take (i + 1) ++ ((c.drop (i + 1)).take (j - i)).reverse ++
        c.drop (j + 1)) d = _
    rw [longueur_triple d _ _ _ hMrev, longueur_reverse]
  have hj1 : jonction d (c.take (i + 1)) ((c.drop (i + 1)).take (j - i)) =
      obtenir_distance d (c.getD i 0) (c.getD (i + 1) 0) := by
    unfold jonction
    rw [getLast?_take_succ c i hi, head?_mid c i j hij hi1]
  have hj2a : jonction d ((c.drop (i + 1)).take (j - i)) (c.drop (j + 1)) =
      obtenir_distance d (c.getD j 0) (c.getD (j + 1) 0) := by
    unfold jonction
    rw [getLast?_mid c i j hij hj, head?_drop_eq c (j + 1) hj]
  have hj3 : jonction d (c.take (i + 1)) ((c.drop (i + 1)).take (j - i)).reverse =
      obtenir_distance d (c.getD i 0) (c.getD j 0) := by
    unfold jonction
    rw [getLast?_take_succ c i hi, List.head?_reverse, getLast?_mid c i j hij hj]
  have hj4 : jonction d ((c.drop (i + 1)).take (j - i)).reverse (c.drop (j + 1)) =
      obtenir_distance d (c.getD (i + 1) 0) (c.getD (j + 1) 0) := by
    unfold jonction
    rw [List.getLast?_reverse, head?_mid c i j hij hi1,
      head?_drop_eq c (j + 1) hj]
  rw [happ, hctriple, hj1, hj2a, hj3, hj4]
  unfold calculer_gain_2opt
  ring

theorem appliquer_perm (c : List Nat) (i j : Nat) (hij : i ≤ j) :
    (appliquer_2opt c i j).Perm c := by
  conv_rhs => rw [cycle_decompose c i j hij]
  exact (((c.drop (i + 1)).take (j - i)).reverse_perm.append_left
    (c.take (i + 1))).append_right (c.drop (j + 1))

theorem appliquer_head? (c : List Nat) (i j : Nat) (hj : j + 1 < c.length) :
    (appliquer_2opt c i j).head? = c.head? := by
  cases c with
  | nil => simp at hj
  | cons a t =>
    unfold appliquer_2opt
    rw [List.take_succ_cons]
    rfl

theorem appliquer_getLast? (c : List Nat) (i j : Nat) (hj : j + 1 < c.length) :
    (appliquer_2opt c i j).getLast? = c.getLast? := by
  unfold appliquer_2opt
  rw [List.append_assoc, List.getLast?_append, List.getLast?_append,
    List.getLast?_drop, if_neg (by omega)]
  cases hc : c.getLast? with
  | none =>
    exact absurd (List.getLast?_eq_none_iff.mp hc)
      (List.length_pos.mp (by omega))
  | some b => rfl

theorem boucle2opt_step (d : DistMap) (fuel : Nat) (c : List Nat) (g : ℚ)
    (i j : Nat) (hch : chercherMeilleurEchange c d = (g, some (i, j)))
    (hg : 1 / 10000 < g) :
    boucle2opt d (fuel + 1) c = boucle2opt d fuel (appliquer_2opt c i j) := by
  conv_lhs => rw [boucle2opt]
  rw [hch]
  show (if 1 / 10000 < g then boucle2opt d fuel (appliquer_2opt c i j) else c) = _
  rw [if_pos hg]

theorem boucle2opt_stop (d : DistMap) (fuel : Nat) (c : List Nat)
    (h : EchangeStable c d) : boucle2opt d fuel c = c := by
  cases fuel with
  | zero => rfl
  | succ n =>
    unfold EchangeStable at h
    rcases hch : chercherMeilleurEchange c d with ⟨g, ij⟩
    rw [hch] at h
    conv_lhs => rw [boucle2opt]
    rw [hch]
    cases ij with
    | none => rfl
    | some p =>
      have h2 : g ≤ 1 / 10000 := h
      show (if 1 / 10000 < g then boucle2opt d n (appliquer_2opt c p.1 p.2)
        else c) = c
      rw [if_neg (not_lt.mpr h2)]

theorem pas_stable_extrait (c : List Nat) (d : DistMap)
    (h : ¬ EchangeStable c d) :
    ∃ g i j, chercherMeilleurEchange c d = (g, some (i, j)) ∧ 1 / 10000 < g ∧
      g = calculer_gain_2opt c i j d ∧ i + 2 ≤ j ∧ j + 1 < c.length := by
  unfold EchangeStable at h
  rcases hch : chercherMeilleurEchange c d with ⟨g, ij⟩
  rw [hch] at h
  cases ij with
  | none => exact absurd trivial h
  | some p =>
    have hinv := chercher_inv c d
    rw [hch] at hinv
    rcases hinv with h2 | ⟨i, j, heq, hgain, hij, hj⟩
    · simp at h2
    · have hp : p = (i, j) := by simpa using heq
      subst hp
      exact ⟨g, i, j, rfl, not_le.mp h, hgain, hij, hj⟩

theorem boucle2opt_longueur_le (d : DistMap) :
    ∀ (fuel : Nat) (c : List Nat),
      calculer_longueur_cycle (boucle2opt d fuel c) d ≤
        calculer_longueur_cycle c d := by
  intro fuel
  induction fuel with
  | zero => intro c; exact le_refl _
  | succ n ih =>
    intro c
    by_cases hst : EchangeStable c d
    · rw [boucle2opt_stop d (n + 1) c hst]
    · obtain ⟨g, i, j, hch, hg, hgain, hij, hj⟩ := pas_stable_extrait c d hst
      rw [boucle2opt_step d n c g i j hch hg]
      refine le_trans (ih _) ?_
      rw [longueur_appliquer c i j d hij hj]
      have h0 : (0:ℚ) < g := lt_trans (by norm_num) hg
      have h1 : (0:ℚ) < calculer_gain_2opt c i j d := hgain ▸ h0
      linarith

theorem boucle2opt_struct (d : DistMap) :
    ∀ (fuel : Nat) (c : List Nat),
      (boucle2opt d fuel c).Perm c ∧
        (boucle2opt d fuel c).head? = c.head? ∧
        (boucle2opt d fuel c).getLast? = c.getLast? := by
  intro fuel
  induction fuel with
  | zero => intro c; exact ⟨List.Perm.refl c, rfl, rfl⟩
  | succ n ih =>
    intro c
    by_cases hst : EchangeStable c d
    · rw [boucle2opt_stop d (n + 1) c hst]
      exact ⟨List.Perm.refl c, rfl, rfl⟩
    · obtain ⟨g, i, j, hch, hg, hgain, hij, hj⟩ := pas_stable_extrait c d hst
      rw [boucle2opt_step d n c g i j hch hg]
      obtain ⟨hp, hh, hl⟩ := ih (appliquer_2opt c i j)
      exact ⟨hp.trans (appliquer_perm c i j (by omega)),
        hh.trans (appliquer_head? c i j hj),
        hl.trans (appliquer_getLast? c i j hj)⟩

theorem mesure_decroit (c c2 : List Nat) (d : DistMap) (hperm : c2.Perm c)
    (hlt : calculer_longueur_cycle c2 d < calculer_longueur_cycle c d) :
    mesure2opt c2 d < mesure2opt c d := by
  unfold mesure2opt
  have hset : c2.permutations.toFinset = c.permutations.toFinset := by
    ext l
    simp only [List.mem_toFinset, List.mem_permutations]
    exact ⟨fun h => h.trans hperm, fun h => h.trans hperm.symm⟩
  rw [hset]
  apply Finset.card_lt_card
  have hsub : c.permutations.toFinset.filter
      (fun l => calculer_longueur_cycle l d < calculer_longueur_cycle c2 d) ⊆
      c.permutations.toFinset.filter
        (fun l => calculer_longueur_cycle l d < calculer_longueur_cycle c d) :=
    Finset.monotone_filter_right _ (fun x hx => lt_trans hx hlt)
  rw [Finset.ssubset_iff_of_subset hsub]
  refine ⟨c2, Finset.mem_filter.mpr
    ⟨List.mem_toFinset.mpr (List.mem_permutations.mpr hperm), hlt⟩, ?_⟩
  intro hmem
  exact absurd (Finset.mem_filter.mp hmem).2 (lt_irrefl _)

theorem mesure_appliquer (c : List Nat) (d : DistMap)
    (hst : ¬ EchangeStable c d) :
    ∃ g i j, chercherMeilleurEchange c d = (g, some (i, j)) ∧ 1 / 10000 < g ∧
      mesure2opt (appliquer_2opt c i j) d < mesure2opt c d := by
  obtain ⟨g, i, j, hch, hg, hgain, hij, hj⟩ := pas_stable_extrait c d hst
  refine ⟨g, i, j, hch, hg, ?_⟩
  apply mesure_decroit c (appliquer_2opt c i j) d (appliquer_perm c i j (by omega))
  rw [longueur_appliquer c i j d hij hj]
  have h0 : (0:ℚ) < g := lt_trans (by norm_num) hg
  have h1 : (0:ℚ) < calculer_gain_2opt c i j d := hgain ▸ h0
  linarith

theorem boucle2opt_converge (d : DistMap) :
    ∀ (fuel : Nat) (c : List Nat), mesure2opt c d ≤ fuel →
      EchangeStable (boucle2opt d fuel c) d := by
  intro fuel
  induction fuel with
  | zero =>
    intro c hm
    by_contra hst
    obtain ⟨g, i, j, hch, hg, hdec⟩ := mesure_appliquer c d hst
    omega
  | succ n ih =>
    intro c hm
    by_cases hst : EchangeStable c d
    · rw [boucle2opt_stop d (n + 1) c hst]; exact hst
    · obtain ⟨g, i, j, hch, hg, hdec⟩ := mesure_appliquer c d hst
      rw [boucle2opt_step d n c g i j hch hg]
      exact ih _ (by omega)

theorem mesure_le_permlength (c : List Nat) (d : DistMap) :
    mesure2opt c d ≤ c.permutations.length :=
  le_trans (Finset.card_filter_le _ _) (List.toFinset_card_le _)

theorem ameliorer_idempotent (c : List Nat) (d : DistMap) :
    ameliorer_cycle_2opt (ameliorer_cycle_2opt c d) d =
      ameliorer_cycle_2opt c d := by
  by_cases h3 : c.length ≤ 3
  · have h1 : ameliorer_cycle_2opt c d = c := by
      unfold ameliorer_cycle_2opt; rw [if_pos h3]
    rw [h1]
    exact h1
  · have hlen : (boucle2opt d c.permutations.length c).length = c.length :=
      (boucle2opt_struct d _ c).1.length_eq
    have h1 : ameliorer_cycle_2opt c d = boucle2opt d c.permutations.length c := by
      unfold ameliorer_cycle_2opt; rw [if_neg h3]
    have hst : EchangeStable (boucle2opt d c.permutations.length c) d :=
      boucle2opt_converge d _ c (mesure_le_permlength c d)
    rw [h1]
    unfold ameliorer_cycle_2opt
    rw [if_neg (by rw [hlen]; exact h3)]
    exact boucle2opt_stop d _ _ hst

/-- C3: for every closed cycle (first element equals last element) and every
distance map (maps on unordered pairs are symmetric by construction), the
tour length of the cycle returned by ameliorer_cycle_2opt is less than or
equal to the tour length of the input cycle. -/
theorem claim_C3_deuxopt_monotone (c : List Nat) (d : DistMap)
    (hferme : c.head? = c.getLast?) :
    calculer_longueur_cycle (ameliorer_cycle_2opt c d) d ≤
      calculer_longueur_cycle c d := by
  unfold ameliorer_cycle_2opt
  by_cases h3 : c.length ≤ 3
  · rw [if_pos h3]
  · rw [if_neg h3]
    exact boucle2opt_longueur_le d _ c

/-- Witness for C3 at the concrete closed cycle [1, 2, 3, 4, 1]. -/
theorem claim_C3_witness :
    ([1, 2, 3, 4, 1] : List Nat).head? = ([1, 2, 3, 4, 1] : List Nat).getLast? ∧
      calculer_longueur_cycle
          (ameliorer_cycle_2opt [1, 2, 3, 4, 1] (fun i j => (i * j : ℚ)))
          (fun i j => (i * j : ℚ)) ≤
        calculer_longueur_cycle [1, 2, 3, 4, 1] (fun i j => (i * j : ℚ)) :=
  ⟨rfl, claim_C3_deuxopt_monotone [1, 2, 3, 4, 1] (fun i j => (i * j : ℚ)) rfl⟩

/-- C4: re-running ameliorer_cycle_2opt on its own output yields a cycle of
the same tour length; in fact the second run returns the converged cycle
unchanged, because after the first run no remaining move has gain above the
1/10000 tolerance. -/
theorem claim_C4_deuxopt_point_fixe (c : List Nat) (d : DistMap)
    (hferme : c.head? = c.getLast?) :
    calculer_longueur_cycle
        (ameliorer_cycle_2opt (ameliorer_cycle_2opt c d) d) d =
      calculer_longueur_cycle (ameliorer_cycle_2opt c d) d := by
  rw [ameliorer_idempotent c d]

/-- Witness for C4 at the concrete closed cycle [1, 2, 3, 4, 1]. -/
theorem claim_C4_witness :
    ([1, 2, 3, 4, 1] : List Nat).head? = ([1, 2, 3, 4, 1] : List Nat).getLast? ∧
      calculer_longueur_cycle
          (ameliorer_cycle_2opt
            (ameliorer_cycle_2opt [1, 2, 3, 4, 1] (fun i j => (i + j : ℚ)))
            (fun i j => (i + j : ℚ)))
          (fun i j => (i + j : ℚ)) =
        calculer_longueur_cycle
          (ameliorer_cycle_2opt [1, 2, 3, 4, 1] (fun i j => (i + j : ℚ)))
          (fun i j => (i + j : ℚ)) :=
  ⟨rfl, claim_C4_deuxopt_point_fixe [1, 2, 3, 4, 1] (fun i j => (i + j : ℚ)) rfl⟩

/-- C10: ameliorer_cycle_2opt preserves the cycle structure: the returned
list has the same length, the same first element, the same last element and
the same multiset of elements as the input.  (The input itself is never
modified: the embedding is purely functional, exactly as the Python code
works on a copy of its argument.) -/
theorem claim_C10_deuxopt_structure (c : List Nat) (d : DistMap) :
    (ameliorer_cycle_2opt c d).length = c.length ∧
      (ameliorer_cycle_2opt c d).head? = c.head? ∧
      (ameliorer_cycle_2opt c d).getLast? = c.getLast? ∧
      (ameliorer_cycle_2opt c d).Perm c := by
  unfold ameliorer_cycle_2opt
  by_cases h3 : c.length ≤ 3
  · rw [if_pos h3]
    exact ⟨rfl, rfl, rfl, List.Perm.refl c⟩
  · rw [if_neg h3]
    obtain ⟨hp, hh, hl⟩ := boucle2opt_struct d c.permutations.length c
    exact ⟨hp.length_eq, hh, hl, hp⟩

theorem chercher_fold_spec (id_point : Nat) (distances : DistMap) :
    ∀ (l : List Nat) (s : Nat),
      ∃ t, l.foldl (etapePlusProche id_point distances)
          (some (s, obtenir_distance distances id_point s)) =
          some (t, obtenir_distance distances id_point t) ∧
        ((t = s ∧ ∀ u ∈ l, obtenir_distance distances id_point s ≤
            obtenir_distance distances id_point u) ∨
          (∃ l1 l2, l = l1 ++ t :: l2 ∧
            obtenir_distance distances id_point t <
              obtenir_distance distances id_point s ∧
            (∀ u ∈ l1, obtenir_distance distances id_point t <
              obtenir_distance distances id_point u) ∧
            (∀ u ∈ l2, obtenir_distance distances id_point t ≤
              obtenir_distance distances id_point u))) := by
  intro l
  induction l with
  | nil =>
    intro s
    exact ⟨s, rfl, Or.inl ⟨rfl, by simp⟩⟩
  | cons u rest ih =>
    intro s
    by_cases hu : obtenir_distance distances id_point u <
        obtenir_distance distances id_point s
    · have hstep : etapePlusProche id_point distances
          (some (s, obtenir_distance distances id_point s)) u =
          some (u, obtenir_distance distances id_point u) := by
        unfold etapePlusProche
        simp [hu]
      rw [List.foldl_cons, hstep]
      obtain ⟨t, heq, hcase⟩ := ih u
      refine ⟨t, heq, Or.inr ?_⟩
      rcases hcase with ⟨rfl, hall⟩ | ⟨l1, l2, hsplit, hlt, hbef, haft⟩
      · exact ⟨[], rest, rfl, hu, by simp, hall⟩
      · refine ⟨u :: l1, l2, by rw [hsplit]; rfl, lt_trans hlt hu, ?_, haft⟩
        intro x hx
        rcases List.mem_cons.mp hx with rfl | hx2
        · exact hlt
        · exact hbef x hx2
    · have hs2 : obtenir_distance distances id_point s ≤
          obtenir_distance distances id_point u := not_lt.mp hu
      have hstep : etapePlusProche id_point distances
          (some (s, obtenir_distance distances id_point s)) u =
          some (s, obtenir_distance distances id_point s) := by
        unfold etapePlusProche
        simp [hu]
      rw [List.foldl_cons, hstep]
      obtain ⟨t, heq, hcase⟩ := ih s
      refine ⟨t, heq, ?_⟩
      rcases hcase with ⟨rfl, hall⟩ | ⟨l1, l2, hsplit, hlt, hbef, haft⟩
      · refine Or.inl ⟨rfl, ?_⟩
        intro x hx
        rcases List.mem_cons.mp hx with rfl | hx2
        · exact hs2
        · exact hall x hx2
      · refine Or.inr ⟨u :: l1, l2, by rw [hsplit]; rfl, hlt, ?_, haft⟩
        intro x hx
        rcases List.mem_cons.mp hx with rfl | hx2
        · exact lt_of_lt_of_le hlt hs2
        · exact hbef x hx2

theorem chercher_spec (id_point : Nat) (stations : List Nat)
    (distances : DistMap) (hs : stations ≠ []) :
    ∃ s l1 l2, stations = l1 ++ s :: l2 ∧
      chercher_station_plus_proche id_point stations distances = some s ∧
      (∀ t ∈ stations, obtenir_distance distances id_point s ≤
        obtenir_distance distances id_point t) ∧
      (∀ t ∈ l1, obtenir_distance distances id_point s <
        obtenir_distance distances id_point t) := by
  cases stations with
  | nil => exact absurd rfl hs
  | cons a rest =>
    obtain ⟨t, heq, hcase⟩ := chercher_fold_spec id_point distances rest a
    have hfold : chercher_station_plus_proche id_point (a :: rest) distances =
        some t := by
      unfold chercher_station_plus_proche
      rw [List.foldl_cons]
      have h1 : etapePlusProche id_point distances none a =
          some (a, obtenir_distance distances id_point a) := rfl
      rw [h1, heq]
      rfl
    rcases hcase with ⟨rfl, hall⟩ | ⟨l1, l2, hsplit, hlt, hbef, haft⟩
    · refine ⟨t, [], rest, rfl, hfold, ?_, by simp⟩
      intro u hu
      rcases List.mem_cons.mp hu with rfl | hu2
      · exact le_refl _
      · exact hall u hu2
    · refine ⟨t, a :: l1, l2, by rw [hsplit]; rfl, hfold, ?_, ?_⟩
      · intro u hu
        rcases List.mem_cons.mp hu with rfl | hu2
        · exact le_of_lt hlt
        · rw [hsplit] at hu2
          rcases List.mem_append.mp hu2 with hu3 | hu3
          · exact le_of_lt (hbef u hu3)
          · rcases List.mem_cons.mp hu3 with rfl | hu4
            · exact le_refl _
            · exact haft u hu4
      · intro u hu
        rcases List.mem_cons.mp hu with rfl | hu2
        · exact hlt
        · exact hbef u hu2

/-- C5: for every point list, non-empty station list and distance map,
affecter_points_aux_stations assigns each station point to itself, and each
non-station point to a station minimising the distance among all stations;
on exact ties the first minimal station in the iteration order of the
station list wins (the chosen station is strictly closer than every station
that precedes it in the list). -/
theorem claim_C5_affectation_optimale (points : List Point)
    (stations : List Nat) (distances : DistMap) (hs : stations ≠ []) :
    ∀ pt ∈ points,
      (pt.1 ∈ stations → (pt.1, some pt.1) ∈
        affecter_points_aux_stations points stations distances) ∧
      (pt.1 ∉ stations → ∃ s l1 l2, stations = l1 ++ s :: l2 ∧
        (pt.1, some s) ∈
          affecter_points_aux_stations points stations distances ∧
        (∀ t ∈ stations, obtenir_distance distances pt.1 s ≤
          obtenir_distance distances pt.1 t) ∧
        (∀ t ∈ l1, obtenir_distance distances pt.1 s <
          obtenir_distance distances pt.1 t)) := by
  intro pt hpt
  constructor
  · intro hmem
    unfold affecter_points_aux_stations
    refine List.mem_map.mpr ⟨pt, hpt, ?_⟩
    simp [hmem]
  · intro hmem
    obtain ⟨s, l1, l2, hsplit, hch, hmin, hbef⟩ :=
      chercher_spec pt.1 stations distances hs
    refine ⟨s, l1, l2, hsplit, ?_, hmin, hbef⟩
    unfold affecter_points_aux_stations
    refine List.mem_map.mpr ⟨pt, hpt, ?_⟩
    simp [hmem, hch]

/-- Witness for C5 on a three-point instance with stations [1, 3]. -/
theorem claim_C5_witness :
    ([1, 3] : List Nat) ≠ [] ∧
      ∀ pt ∈ ([(1, 0, 0), (2, 3, 0), (3, 9, 0)] : List Point),
        (pt.1 ∈ ([1, 3] : List Nat) → (pt.1, some pt.1) ∈
          affecter_points_aux_stations [(1, 0, 0), (2, 3, 0), (3, 9, 0)]
            [1, 3] (fun i j => (i + j : ℚ))) ∧
        (pt.1 ∉ ([1, 3] : List Nat) → ∃ s l1 l2,
          ([1, 3] : List Nat) = l1 ++ s :: l2 ∧
          (pt.1, some s) ∈
            affecter_points_aux_stations [(1, 0, 0), (2, 3, 0), (3, 9, 0)]
              [1, 3] (fun i j => (i + j : ℚ)) ∧
          (∀ t ∈ ([1, 3] : List Nat),
            obtenir_distance (fun i j => (i + j : ℚ)) pt.1 s ≤
              obtenir_distance (fun i j => (i + j : ℚ)) pt.1 t) ∧
          (∀ t ∈ l1, obtenir_distance (fun i j => (i + j : ℚ)) pt.1 s <
            obtenir_distance (fun i j => (i + j : ℚ)) pt.1 t)) :=
  ⟨by decide, claim_C5_affectation_optimale
    [(1, 0, 0), (2, 3, 0), (3, 9, 0)] [1, 3] (fun i j => (i + j : ℚ))
    (by decide)⟩

theorem boucleGrille_cons (points : List Point) (c : ℚ × ℚ)
    (rest : List (ℚ × ℚ)) (etat : List Nat × List Nat) :
    boucleGrille points (c :: rest) etat =
      boucleGrille points rest
        (match chercherMeilleurPoint (0, c.1, c.2) points etat.2 with
          | some mp => (etat.1 ++ [mp], mp :: etat.2)
          | none => etat) := rfl

theorem boucleGrille_length (points : List Point) :
    ∀ (centres : List (ℚ × ℚ)) (etat : List Nat × List Nat),
      (boucleGrille points centres etat).1.length ≤
        etat.1.length + centres.length := by
  intro centres
  induction centres with
  | nil => intro etat; exact Nat.le_add_right _ _
  | cons c rest ih =>
    intro etat
    rw [boucleGrille_cons]
    cases hch : chercherMeilleurPoint (0, c.1, c.2) points etat.2 with
    | some mp =>
      simp only [hch]
      have h2 := ih (etat.1 ++ [mp], mp :: etat.2)
      simp only [List.length_append, List.length_singleton] at h2
      simp only [List.length_cons]
      omega
    | none =>
      simp only [hch]
      have h2 := ih etat
      simp only [List.length_cons]
      omega

theorem boucleGrille_mem_un (points : List Point) :
    ∀ (centres : List (ℚ × ℚ)) (etat : List Nat × List Nat),
      1 ∈ etat.1 → 1 ∈ (boucleGrille points centres etat).1 := by
  intro centres
  induction centres with
  | nil => intro etat h; exact h
  | cons c rest ih =>
    intro etat h
    rw [boucleGrille_cons]
    cases hch : chercherMeilleurPoint (0, c.1, c.2) points etat.2 with
    | some mp =>
      simp only [hch]
      exact ih _ (List.mem_append_left _ h)
    | none =>
      simp only [hch]
      exact ih _ h

theorem boucleGrille_points_identiques :
    ∀ (centres : List (ℚ × ℚ)) (etat : List Nat × List Nat), 1 ∈ etat.2 →
      boucleGrille [(1, 0, 0), (1, 0, 0)] centres etat = etat := by
  intro centres
  induction centres with
  | nil => intro etat _; rfl
  | cons c rest ih =>
    intro etat h
    rw [boucleGrille_cons]
    have hch : chercherMeilleurPoint (0, c.1, c.2) [(1, 0, 0), (1, 0, 0)]
        etat.2 = none := by
      unfold chercherMeilleurPoint
      simp [h]
    simp only [hch]
    exact ih etat h

/-- C9: for every point list of size N and every p >= 1, the random strategy
returns exactly min(p, N) station identifiers (random.sample being assumed
only to return as many elements as requested), the grid strategy returns at
most min(p, N), and there is an input with an empty grid-cell candidate pool
(all points identical) on which the grid strategy returns strictly fewer
than min(p, N). -/
theorem claim_C9_cardinalite :
    (∀ (sample : List Nat → Nat → List Nat) (points : List Point) (p : Int),
        1 ≤ p → (∀ l k, (sample l k).length = k) →
        ((selectionner_stations_aleatoire sample points p).length : Int) =
          min p (points.length : Int)) ∧
      (∀ (points : List Point) (p : Int), 1 ≤ p →
        ((selectionner_stations_grille points p).length : Int) ≤
          min p (points.length : Int)) ∧
      ((selectionner_stations_grille [(1, 0, 0), (1, 0, 0)] 2).length : Int) <
        min 2 (([(1, 0, 0), (1, 0, 0)] : List Point).length : Int) := by
  refine ⟨?_, ?_, ?_⟩
  · intro sample points p hp hlen
    unfold selectionner_stations_aleatoire
    rw [if_neg (by omega)]
    by_cases hgt : p > (points.length : Int)
    · rw [if_pos hgt]
      simp only [List.length_map]
      omega
    · rw [if_neg hgt]
      by_cases h1 : p = 1
      · rw [if_pos h1]
        simp only [List.length_singleton]
        omega
      · rw [if_neg h1]
        simp only [List.length_append, List.length_singleton, hlen]
        omega
  · intro points p hp
    unfold selectionner_stations_grille
    rw [if_neg (by omega)]
    by_cases hgt : p > (points.length : Int)
    · rw [if_pos hgt]
      simp only [List.length_map]
      omega
    · rw [if_neg hgt]
      by_cases h1 : p = 1
      · rw [if_pos h1]
        simp only [List.length_singleton]
        omega
      · rw [if_neg h1]
        have hb := boucleGrille_length points
          (centresGrille points (p - 1).toNat) ([1], [1])
        have hc : (centresGrille points (p - 1).toNat).length ≤
            (p - 1).toNat := List.length_take_le _ _
        simp only [List.length_singleton] at hb
        omega
  · have h1 : selectionner_stations_grille [(1, 0, 0), (1, 0, 0)] 2 = [1] := by
      unfold selectionner_stations_grille
      rw [if_neg (by decide), if_neg (by decide), if_neg (by decide),
        boucleGrille_points_identiques _ ([1], [1]) (by decide)]
    rw [h1]
    decide

/-- Witness for C9 on a two-point instance with p = 2 and a sampler
returning the requested number of elements. -/
theorem claim_C9_witness :
    ((1 : Int) ≤ 2 ∧
        ∀ (l : List Nat) (k : Nat), (List.replicate k 0).length = k) ∧
      ((selectionner_stations_aleatoire (fun _ k => List.replicate k 0)
          [(1, 0, 0), (2, 3, 4)] 2).length : Int) =
        min 2 (([(1, 0, 0), (2, 3, 4)] : List Point).length : Int) ∧
      ((selectionner_stations_grille [(1, 0, 0), (2, 3, 4)] 2).length : Int) ≤
        min 2 (([(1, 0, 0), (2, 3, 4)] : List Point).length : Int) :=
  ⟨⟨by decide, fun l k => List.length_replicate k 0⟩,
    claim_C9_cardinalite.1 (fun _ k => List.replicate k 0)
      [(1, 0, 0), (2, 3, 4)] 2 (by decide)
      (fun l k => List.length_replicate k 0),
    claim_C9_cardinalite.2.1 [(1, 0, 0), (2, 3, 4)] 2 (by decide)⟩

theorem getD_prop (P : Nat → Prop) (l : List Nat) (idx dflt : Nat)
    (hl : ∀ x ∈ l, P x) (hd : P dflt) : P (l.getD idx dflt) := by
  by_cases h : idx < l.length
  · rw [List.getD_eq_getElem l dflt h]
    exact hl _ (List.getElem_mem h)
  · rw [List.getD_eq_default l dflt (le_of_not_lt h)]
    exact hd

/-- C1 counterexample: with p = 0 the random selection pathway returns the
empty station list, which does not contain the anchor identifier 1, even on
an instance whose point list contains the anchor. -/
theorem claim_C1_contre_exemple :
    1 ∉ selectionner_stations_aleatoire (fun _ _ => []) [(1, 0, 0)] 0 := by
  decide

/-- C1 amended: the anchor invariant holds for p ≥ 1 on instances whose
point identifiers include the anchor 1 (it fails for p ≤ 0, where both
selectors return the empty list, and for p > N on point lists without
identifier 1, where the all-points branch returns only the existing
identifiers): both selectors then return a list containing 1, and one
annealing neighbour step preserves membership of 1, so every station set
reached from an anchored solution by any number of simulated-annealing steps
contains the anchor. -/
theorem claim_C1_ancre :
    (∀ (sample : List Nat → Nat → List Nat) (points : List Point) (p : Int),
        1 ≤ p → 1 ∈ points.map (fun point => point.1) →
        1 ∈ selectionner_stations_aleatoire sample points p) ∧
      (∀ (points : List Point) (p : Int), 1 ≤ p →
        1 ∈ points.map (fun point => point.1) →
        1 ∈ selectionner_stations_grille points p) ∧
      (∀ (choix_station choix_point : Nat) (points : List Point)
        (stations : List Nat), 1 ∈ stations →
        1 ∈ generer_voisin_echange_station choix_station choix_point points
          stations) := by
  refine ⟨?_, ?_, ?_⟩
  · intro sample points p hp hid
    unfold selectionner_stations_aleatoire
    rw [if_neg (by omega)]
    by_cases hgt : p > (points.length : Int)
    · rw [if_pos hgt]
      exact hid
    · rw [if_neg hgt]
      by_cases h1 : p = 1
      · rw [if_pos h1]
        exact List.mem_singleton.mpr rfl
      · rw [if_neg h1]
        exact List.mem_append_left _ (List.mem_singleton.mpr rfl)
  · intro points p hp hid
    unfold selectionner_stations_grille
    rw [if_neg (by omega)]
    by_cases hgt : p > (points.length : Int)
    · rw [if_pos hgt]
      exact hid
    · rw [if_neg hgt]
      by_cases h1 : p = 1
      · rw [if_pos h1]
        exact List.mem_singleton.mpr rfl
      · rw [if_neg h1]
        exact boucleGrille_mem_un points _ ([1], [1])
          (List.mem_singleton.mpr rfl)
  · intro choix_station choix_point points stations h
    simp only [generer_voisin_echange_station]
    by_cases hns : (points.map (fun point => point.1)).filter
        (fun id_point => decide (id_point ∉ stations)) = []
    · rw [if_pos hns]
      exact h
    · rw [if_neg hns]
      by_cases hr : stations.filter (fun s => decide (s ≠ 1)) = []
      · rw [if_pos hr]
        exact h
      · rw [if_neg hr]
        apply List.mem_append_left
        have hne : (stations.filter (fun s => decide (s ≠ 1))).getD
            (choix_station % (stations.filter
              (fun s => decide (s ≠ 1))).length) 0 ≠ 1 := by
          exact getD_prop (fun x => x ≠ 1) _ _ _
            (fun x hx => of_decide_eq_true (List.mem_filter.mp hx).2)
            (by decide)
        rw [List.mem_erase_of_ne (Ne.symm hne)]
        exact h

/-- Witness for the amended C1 on a two-point instance containing the
anchor, with p = 2, and one neighbour step from the anchored station list
[1]. -/
theorem claim_C1_witness :
    1 ∈ selectionner_stations_aleatoire (fun _ _ => [2])
        [(1, 0, 0), (2, 1, 1)] 2 ∧
      1 ∈ selectionner_stations_grille [(1, 0, 0), (2, 1, 1)] 2 ∧
      1 ∈ generer_voisin_echange_station 0 0 [(1, 0, 0), (2, 1, 1)] [1] :=
  ⟨claim_C1_ancre.1 (fun _ _ => [2]) [(1, 0, 0), (2, 1, 1)] 2 (by decide)
      (by decide),
    claim_C1_ancre.2.1 [(1, 0, 0), (2, 1, 1)] 2 (by decide) (by decide),
    claim_C1_ancre.2.2 0 0 [(1, 0, 0), (2, 1, 1)] [1] (by decide)⟩

theorem selection_aleatoire_vide (sample : List Nat → Nat → List Nat)
    (p : Int) : selectionner_stations_aleatoire sample [] p = [] := by
  unfold selectionner_stations_aleatoire
  by_cases hp : p ≤ 0
  · rw [if_pos hp]
  · rw [if_neg hp, if_pos (by simp only [List.length_nil]; omega)]
    rfl

theorem selection_grille_vide (p : Int) :
    selectionner_stations_grille [] p = [] := by
  unfold selectionner_stations_grille
  by_cases hp : p ≤ 0
  · rw [if_pos hp]
  · rw [if_neg hp, if_pos (by simp only [List.length_nil]; omega)]
    rfl

/-- C8 counterexample: with p = 0 and a NON-empty point list, the pipeline
does not return an empty Assignment: every point gets an entry assigned to
no station (Python None), so the claimed empty mapping fails. -/
theorem claim_C8_contre_exemple :
    (construire_solution_initiale (fun _ _ => []) [(1, 0, 0)] 0 "grille" true
        (1 / 2)).affectations ≠ [] := by
  decide

/-- C8 amended: for an EMPTY input point list the pipeline returns the fully
empty Solution with all three costs zero, whatever p, the selection method,
the local-search flag and alpha are.  (The other half of the original claim
is false: p = 0 with a non-empty point list yields a non-empty Assignment
mapping every point to no station, see the counterexample.) -/
theorem claim_C8_instance_vide (sample : List Nat → Nat → List Nat) (p : Int)
    (methode_selection : String) (ameliorer : Bool) (alpha : ℚ) :
    construire_solution_initiale sample [] p methode_selection ameliorer
        alpha =
      { stations := [], cycle := [], affectations := [],
        longueur_cycle := 0, cout_affectation := 0, cout_total := 0 } := by
  by_cases hm : methode_selection = "aleatoire" <;>
    by_cases hfl : ameliorer <;>
      simp [construire_solution_initiale, hm, hfl, selection_aleatoire_vide,
        selection_grille_vide, construire_cycle_plus_proche_voisin,
        affecter_points_aux_stations, calculer_cout_affectation,
        ameliorer_cycle_2opt, longueur_nil, calculer_longueur_cycle]

section Recuit

variable (points : List Point) (distances : DistMap)
variable (alpha tf f : ℚ) (cs cp : Nat → Nat) (ap : Nat → Bool) (ipt : Nat)

theorem etape_temperature (etat : EtatRecuit) :
    (etapeInterieure points distances alpha cs cp ap etat).temperature =
      etat.temperature := by
  unfold etapeInterieure
  repeat' split
  all_goals rfl

theorem iterate_temperature :
    ∀ (n : Nat) (etat : EtatRecuit),
      ((etapeInterieure points distances alpha cs cp ap)^[n] etat).temperature =
        etat.temperature := by
  intro n
  induction n with
  | zero => intro etat; rfl
  | succ m ih =>
    intro etat
    rw [Function.iterate_succ_apply', etape_temperature]
    exact ih etat

theorem etape_meilleur (etat : EtatRecuit)
    (h : etat.meilleure_solution.cout_total = etat.meilleur_cout) :
    (etapeInterieure points distances alpha cs cp ap
          etat).meilleure_solution.cout_total =
        (etapeInterieure points distances alpha cs cp ap etat).meilleur_cout ∧
      (etapeInterieure points distances alpha cs cp ap etat).meilleur_cout ≤
        etat.meilleur_cout ∧
      ((etapeInterieure points distances alpha cs cp ap
          etat).meilleure_solution = etat.meilleure_solution ∨
        ∃ stations2,
          (etapeInterieure points distances alpha cs cp ap
            etat).meilleure_solution =
            recalculer_solution points stations2 distances alpha) := by
  unfold etapeInterieure
  split
  · exact ⟨h, le_refl _, Or.inl rfl⟩
  · split
    · split
      · next hlt => exact ⟨rfl, le_of_lt hlt, Or.inr ⟨_, rfl⟩⟩
      · exact ⟨h, le_refl _, Or.inl rfl⟩
    · exact ⟨h, le_refl _, Or.inl rfl⟩

theorem iterate_meilleur :
    ∀ (n : Nat) (etat : EtatRecuit),
      etat.meilleure_solution.cout_total = etat.meilleur_cout →
      ((etapeInterieure points distances alpha cs cp ap)^[n]
            etat).meilleure_solution.cout_total =
          ((etapeInterieure points distances alpha cs cp ap)^[n]
            etat).meilleur_cout ∧
        ((etapeInterieure points distances alpha cs cp ap)^[n]
            etat).meilleur_cout ≤ etat.meilleur_cout ∧
        (((etapeInterieure points distances alpha cs cp ap)^[n]
            etat).meilleure_solution = etat.meilleure_solution ∨
          ∃ stations2,
            ((etapeInterieure points distances alpha cs cp ap)^[n]
              etat).meilleure_solution =
              recalculer_solution points stations2 distances alpha) := by
  intro n
  induction n with
  | zero => intro etat h; exact ⟨h, le_refl _, Or.inl rfl⟩
  | succ m ih =>
    intro etat h
    rw [Function.iterate_succ_apply']
    obtain ⟨h1, h2, h3⟩ := ih etat h
    obtain ⟨g1, g2, g3⟩ :=
      etape_meilleur points distances alpha cs cp ap _ h1
    refine ⟨g1, le_trans g2 h2, ?_⟩
    rcases g3 with heq | ⟨s2, heq⟩
    · rw [heq]
      exact h3
    · exact Or.inr ⟨s2, heq⟩

theorem boucleRecuit_zero (etat : EtatRecuit) :
    boucleRecuit points distances alpha tf f cs cp ap ipt 0 etat =
      if tf < etat.temperature then none else some etat := rfl

theorem boucleRecuit_succ (plafond : Nat) (etat : EtatRecuit) :
    boucleRecuit points distances alpha tf f cs cp ap ipt (plafond + 1) etat =
      if tf < etat.temperature then
        boucleRecuit points distances alpha tf f cs cp ap ipt plafond
          { ((etapeInterieure points distances alpha cs cp ap)^[ipt] etat) with
            temperature :=
              ((etapeInterieure points distances alpha cs cp ap)^[ipt]
                etat).temperature * f }
      else some etat := rfl

theorem boucle_meilleur :
    ∀ (plafond : Nat) (etat etatF : EtatRecuit),
      etat.meilleure_solution.cout_total = etat.meilleur_cout →
      boucleRecuit points distances alpha tf f cs cp ap ipt plafond etat =
        some etatF →
      etatF.meilleure_solution.cout_total = etatF.meilleur_cout ∧
        etatF.meilleur_cout ≤ etat.meilleur_cout ∧
        (etatF.meilleure_solution = etat.meilleure_solution ∨
          ∃ stations2, etatF.meilleure_solution =
            recalculer_solution points stations2 distances alpha) := by
  intro plafond
  induction plafond with
  | zero =>
    intro etat etatF h hb
    rw [boucleRecuit_zero] at hb
    by_cases hT : tf < etat.temperature
    · rw [if_pos hT] at hb
      exact absurd hb (by simp)
    · rw [if_neg hT] at hb
      obtain rfl : etat = etatF := by injection hb
      exact ⟨h, le_refl _, Or.inl rfl⟩
  | succ m ih =>
    intro etat etatF h hb
    rw [boucleRecuit_succ] at hb
    by_cases hT : tf < etat.temperature
    · rw [if_pos hT] at hb
      obtain ⟨h1, h2, h3⟩ :=
        iterate_meilleur points distances alpha cs cp ap ipt etat h
      obtain ⟨g1, g2, g3⟩ := ih
        { ((etapeInterieure points distances alpha cs cp ap)^[ipt] etat) with
          temperature := ((etapeInterieure points distances alpha cs cp
            ap)^[ipt] etat).temperature * f } etatF h1 hb
      refine ⟨g1, le_trans g2 h2, ?_⟩
      rcases g3 with heq | ⟨s2, heq⟩
      · rw [heq]
        exact h3
      · exact Or.inr ⟨s2, heq⟩
    · rw [if_neg hT] at hb
      obtain rfl : etat = etatF := by injection hb
      exact ⟨h, le_refl _, Or.inl rfl⟩

end Recuit

theorem recuit_execution_temoin :
    recuit_simule 1 (fun _ => 0) (fun _ => 0) (fun _ => false) [(1, 0, 0)]
        solution_temoin (fun _ _ => 0) (1 / 2) 1 (1 / 2) (1 / 2) 1 =
      some solution_temoin := by
  have hgen : generer_voisin_echange_station 0 0 [(1, 0, 0)] [1] = [1] := by
    decide
  have hetape : etapeInterieure [(1, 0, 0)] (fun _ _ => 0) (1 / 2)
      (fun _ => 0) (fun _ => 0) (fun _ => false)
      { solution_courante := solution_temoin,
        meilleure_solution := solution_temoin,
        meilleur_cout := solution_temoin.cout_total, temperature := 1,
        nombre_acceptations := 0, nombre_rejets := 0, iteration := 0 } =
      { solution_courante := solution_temoin,
        meilleure_solution := solution_temoin,
        meilleur_cout := solution_temoin.cout_total, temperature := 1,
        nombre_acceptations := 0, nombre_rejets := 0, iteration := 1 } := by
    unfold etapeInterieure
    split
    · rfl
    · next hcond => exact absurd hgen hcond
  unfold recuit_simule
  rw [boucleRecuit_succ, Function.iterate_one, hetape, boucleRecuit_zero]
  norm_num

/-- C2: for every input point list, distance map, draw sequence (the two
choice oracles and the Metropolis acceptance oracle) and valid
parameterisation (initial temperature above final temperature, final
temperature positive, cooling factor in (0,1), at least one inner
iteration), when recuit_simule completes it returns a Solution whose total
cost is at most the total cost of the supplied initial Solution. -/
theorem claim_C2_recuit_non_regression (plafond : Nat) (cs cp : Nat → Nat)
    (ap : Nat → Bool) (points : List Point) (solution_initiale : Solution)
    (distances : DistMap) (alpha t0 tf f : ℚ) (ipt : Nat) (sol : Solution)
    (htf : 0 < tf) (ht0 : tf < t0) (hf0 : 0 < f) (hf1 : f < 1)
    (hipt : 1 ≤ ipt)
    (h : recuit_simule plafond cs cp ap points solution_initiale distances
      alpha t0 tf f ipt = some sol) :
    sol.cout_total ≤ solution_initiale.cout_total := by
  unfold recuit_simule at h
  obtain ⟨etatF, hbr, heq⟩ := Option.map_eq_some'.mp h
  obtain ⟨h1, h2, _⟩ := boucle_meilleur points distances alpha tf f cs cp ap
    ipt plafond _ etatF rfl hbr
  rw [← heq]
  calc etatF.meilleure_solution.cout_total = etatF.meilleur_cout := h1
    _ ≤ solution_initiale.cout_total := h2

/-- Witness for C2: a one-cooling-step run on the single-point instance,
where every neighbour move degenerates, completes and returns the initial
solution. -/
theorem claim_C2_witness :
    ((0 : ℚ) < 1 / 2 ∧ (1 : ℚ) / 2 < 1 ∧ (0 : ℚ) < 1 / 2 ∧
        (1 : ℚ) / 2 < 1 ∧ 1 ≤ 1) ∧
      solution_temoin.cout_total ≤ solution_temoin.cout_total :=
  ⟨⟨by norm_num, by norm_num, by norm_num, by norm_num, le_refl 1⟩,
    claim_C2_recuit_non_regression 1 (fun _ => 0) (fun _ => 0)
      (fun _ => false) [(1, 0, 0)] solution_temoin (fun _ _ => 0) (1 / 2) 1
      (1 / 2) (1 / 2) 1 solution_temoin (by norm_num) (by norm_num)
      (by norm_num) (by norm_num) (le_refl 1) recuit_execution_temoin⟩

/-- C7: for every valid parameterisation (initial temperature strictly above
the final one, final temperature positive, cooling factor strictly between 0
and 1) and any number of iterations per temperature, the annealing loop
terminates: a finite number of geometric cooling steps brings the
temperature to or below the final temperature, and recuit_simule completes
within that bound. -/
theorem claim_C7_terminaison (cs cp : Nat → Nat) (ap : Nat → Bool)
    (points : List Point) (solution_initiale : Solution)
    (distances : DistMap) (alpha t0 tf f : ℚ) (ipt : Nat)
    (htf : 0 < tf) (ht0 : tf < t0) (hf0 : 0 < f) (hf1 : f < 1) :
    ∃ plafond, (recuit_simule plafond cs cp ap points solution_initiale
      distances alpha t0 tf f ipt).isSome := by
  have ht0pos : (0 : ℚ) < t0 := lt_trans htf ht0
  obtain ⟨n, hn⟩ := exists_pow_lt_of_lt_one (div_pos htf ht0pos) hf1
  have hkey : ∀ (m : Nat) (etat : EtatRecuit), etat.temperature * f ^ m ≤ tf →
      (boucleRecuit points distances alpha tf f cs cp ap ipt m
        etat).isSome := by
    intro m
    induction m with
    | zero =>
      intro etat hm
      rw [boucleRecuit_zero, if_neg (not_lt.mpr (by simpa using hm))]
      rfl
    | succ k ih =>
      intro etat hm
      rw [boucleRecuit_succ]
      by_cases hT : tf < etat.temperature
      · rw [if_pos hT]
        apply ih
        show ((etapeInterieure points distances alpha cs cp ap)^[ipt]
          etat).temperature * f * f ^ k ≤ tf
        rw [iterate_temperature]
        calc etat.temperature * f * f ^ k
            = etat.temperature * f ^ (k + 1) := by ring
          _ ≤ tf := hm
      · rw [if_neg hT]
        rfl
  refine ⟨n, ?_⟩
  have hst0 : t0 * f ^ n ≤ tf := by
    have h2 : f ^ n * t0 < tf := (lt_div_iff ht0pos).mp hn
    linarith
  have h3 := hkey n
    { solution_courante := solution_initiale,
      meilleure_solution := solution_initiale,
      meilleur_cout := solution_initiale.cout_total,
      temperature := t0, nombre_acceptations := 0, nombre_rejets := 0,
      iteration := 0 } hst0
  unfold recuit_simule
  obtain ⟨etatF, hF⟩ := Option.isSome_iff_exists.mp h3
  rw [hF]
  rfl

/-- Witness for C7 at a concrete valid parameterisation. -/
theorem claim_C7_witness :
    ((0 : ℚ) < 1 / 2 ∧ (1 : ℚ) / 2 < 1 ∧ (0 : ℚ) < 1 / 2 ∧
        (1 : ℚ) / 2 < 1) ∧
      ∃ plafond, (recuit_simule plafond (fun _ => 0) (fun _ => 0)
        (fun _ => false) [(1, 0, 0)] solution_temoin (fun _ _ => 0) (1 / 2) 1
        (1 / 2) (1 / 2) 1).isSome :=
  ⟨⟨by norm_num, by norm_num, by norm_num, by norm_num⟩,
    claim_C7_terminaison (fun _ => 0) (fun _ => 0) (fun _ => false)
      [(1, 0, 0)] solution_temoin (fun _ _ => 0) (1 / 2) 1 (1 / 2) (1 / 2) 1
      (by norm_num) (by norm_num) (by norm_num) (by norm_num)⟩

/-- C6: the stored total cost always equals alpha times the stored cycle
length plus (1 - alpha) times the stored assignment cost, exactly: for every
Solution built by the construction pipeline, for every Solution rebuilt by
recalculer_solution, and for every Solution returned by the annealing
optimizer from an initial Solution satisfying the same decomposition. -/
theorem claim_C6_decomposition_cout :
    (∀ (sample : List Nat → Nat → List Nat) (points : List Point) (p : Int)
        (methode_selection : String) (am : Bool) (alpha : ℚ),
        (construire_solution_initiale sample points p methode_selection am
            alpha).cout_total =
          alpha * (construire_solution_initiale sample points p
              methode_selection am alpha).longueur_cycle +
            (1 - alpha) * (construire_solution_initiale sample points p
              methode_selection am alpha).cout_affectation) ∧
      (∀ (points : List Point) (stations : List Nat) (distances : DistMap)
          (alpha : ℚ),
        (recalculer_solution points stations distances alpha).cout_total =
          alpha * (recalculer_solution points stations distances
              alpha).longueur_cycle +
            (1 - alpha) * (recalculer_solution points stations distances
              alpha).cout_affectation) ∧
      (∀ (plafond : Nat) (cs cp : Nat → Nat) (ap : Nat → Bool)
          (points : List Point) (solution_initiale : Solution)
          (distances : DistMap) (alpha t0 tf f : ℚ) (ipt : Nat)
          (sol : Solution),
        solution_initiale.cout_total =
          alpha * solution_initiale.longueur_cycle +
            (1 - alpha) * solution_initiale.cout_affectation →
        recuit_simule plafond cs cp ap points solution_initiale distances
          alpha t0 tf f ipt = some sol →
        sol.cout_total = alpha * sol.longueur_cycle +
          (1 - alpha) * sol.cout_affectation) := by
  refine ⟨fun _ _ _ _ _ _ => rfl, fun _ _ _ _ => rfl, ?_⟩
  intro plafond cs cp ap points solution_initiale distances alpha t0 tf f
    ipt sol h0 h
  unfold recuit_simule at h
  obtain ⟨etatF, hbr, heq⟩ := Option.map_eq_some'.mp h
  obtain ⟨_, _, h3⟩ := boucle_meilleur points distances alpha tf f cs cp ap
    ipt plafond _ etatF rfl hbr
  rw [← heq]
  rcases h3 with heq2 | ⟨s2, heq2⟩
  · rw [heq2]
    exact h0
  · rw [heq2]
    rfl

/-- Witness for C6: pipeline and optimizer outputs on the degenerate
single-point run satisfy the exact decomposition. -/
theorem claim_C6_witness :
    (solution_temoin.cout_total =
        (1 / 2 : ℚ) * solution_temoin.longueur_cycle +
          (1 - 1 / 2) * solution_temoin.cout_affectation) ∧
      solution_temoin.cout_total =
        (1 / 2 : ℚ) * solution_temoin.longueur_cycle +
          (1 - 1 / 2) * solution_temoin.cout_affectation :=
  ⟨by norm_num [solution_temoin],
    claim_C6_decomposition_cout.2.2 1 (fun _ => 0) (fun _ => 0)
      (fun _ => false) [(1, 0, 0)] solution_temoin (fun _ _ => 0) (1 / 2) 1
      (1 / 2) (1 / 2) 1 solution_temoin (by norm_num [solution_temoin])
      recuit_execution_temoin⟩

end RingStar
